import Mathlib

/-!
Verification development for the question-answering retrieval engine of this
repository.  The chat endpoint `src/web/src/app/api/chat/route.ts` is embedded
faithfully below (`POST`), parametric over the three collaborators it imports
(`translateToEnglish`, `findAnswer`, `translateFromEnglish`), whose sources are
not part of the visible repository and are therefore modelled from the spec
where a claim needs their internals.
-/

namespace Spec2Proof

attribute [local semireducible] Substring.takeWhileAux Substring.takeRightWhileAux

/-- A parsed JSON field value, restricted to what the route inspects.
`str` is a JSON string; `null` is JSON `null`; `other coerced` stands for any
non-string, non-null JSON value whose JavaScript `String(·)` coercion is
`coerced` (e.g. a number, boolean, array or object). -/
inductive JValue where
  | str (s : String)
  | null
  | other (coerced : String)
deriving DecidableEq

/-- The request body as the route reads it: the four fields `POST` accesses,
each absent (`none`) or holding a JSON value. -/
structure Body where
  message : Option JValue
  scope : Option JValue
  bookId : Option JValue
  targetLanguage : Option JValue
deriving DecidableEq

/-- JavaScript `String(v ?? '')`: absent (`undefined`) and `null` coalesce to
the empty string, a string is itself, anything else is its coercion. -/
def jsCoerceString : Option JValue → String
  | none => ""
  | some JValue.null => ""
  | some (JValue.str s) => s
  | some (JValue.other c) => c

/-- `String(body?.message ?? '')` (route.ts line 9, before `.trim()`). -/
def rawMessage (b : Body) : String := jsCoerceString b.message

/-- `String(body?.message ?? '').trim()` (route.ts line 9). -/
def routeMessage (b : Body) : String := (rawMessage b).trim

/-- The scope after coercion at the route boundary. -/
inductive ScopeTag where
  | book
  | library
deriving DecidableEq

/-- `body?.scope === 'book' ? 'book' : 'library'` (route.ts line 10). -/
def parseScope (v : Option JValue) : ScopeTag :=
  if v = some (JValue.str "book") then ScopeTag.book else ScopeTag.library

/-- `typeof body?.bookId === 'string' ? body.bookId : undefined` (route.ts line 11). -/
def parseBookId : Option JValue → Option String
  | some (JValue.str s) => some s
  | _ => none

/-- `typeof body?.targetLanguage === 'string' ? body.targetLanguage : 'en'`
(route.ts lines 12-13). -/
def parseTargetLanguage : Option JValue → String
  | some (JValue.str s) => s
  | _ => "en"

/-- JavaScript `a || b` on strings: the empty string is the only falsy string. -/
def jsOr (a b : String) : String := if a = "" then b else a

/-- Result of `translateToEnglish` as the route consumes it
(`{ text, detected }`, route.ts line 22). -/
structure TranslationResult where
  text : String
  detected : String
deriving DecidableEq

/-- The `book` part of a qa answer as the route consumes it
(`answer.book.id`, `answer.book.title`). -/
structure BookRef where
  id : String
  title : String
deriving DecidableEq

/-- An answer returned by `findAnswer`, with exactly the fields the route
reads: `answer.answer`, `answer.book`, `answer.section`, `answer.supporting`. -/
structure Answer where
  answer : String
  book : BookRef
  «section» : String
  supporting : List String
deriving DecidableEq

/-- The `source` object of a successful response (route.ts lines 56-60). -/
structure SourceRef where
  id : String
  title : String
  «section» : String
deriving DecidableEq

/-- The JSON body of a normal (200) chat response (route.ts lines 49-62). -/
structure ChatResponse where
  answer : String
  baseAnswer : String
  targetLanguage : String
  detectedLanguage : String
  found : Bool
  source : Option SourceRef
deriving DecidableEq

/-- Failure of the qa engine.  The spec's error taxonomy names `InvalidScope`
(`scope = "book"` without a `bookId`) as the one caller error. -/
inductive QaError where
  | invalidScope
deriving DecidableEq

/-- The second argument of `findAnswer` (route.ts lines 24-27). -/
structure QueryOptions where
  scope : ScopeTag
  bookId : Option String
deriving DecidableEq

/-- Outcome of one `POST` call: a 4xx error response, a normal JSON response,
or an engine failure propagating out of the handler (the route has no
try/catch). -/
inductive RouteResult where
  | errorResponse (status : Nat) (error : String)
  | ok (response : ChatResponse)
  | failed (e : QaError)
deriving DecidableEq

/-- Instrumentation: the arguments of every call the handler makes to each of
its three collaborators, in order. -/
structure CallLog where
  toEnglishCalls : List String
  findAnswerCalls : List (String × QueryOptions)
  fromEnglishCalls : List (String × String)
deriving DecidableEq

/-- The three collaborators imported by the route, as pure functions:
`translateToEnglish`, `findAnswer` and `translateFromEnglish`. -/
structure Deps where
  toEn : String → TranslationResult
  qa : String → QueryOptions → Except QaError (Option Answer)
  fromEn : String → String → String

/-- The fixed fallback message (route.ts lines 29-30). -/
def fallbackAnswer : String :=
  "I could not find a precise passage in the library. Try refining your question with more context, such as a topic or chapter."

/-- `Source: ${answer.book.title} — ${answer.section}` (route.ts line 35). -/
def sourceLine (a : Answer) : String :=
  "Source: " ++ a.book.title ++ " — " ++ a.«section»

/-- `answer.supporting.length ? `Related context: ...` : ''` (route.ts lines 36-38). -/
def relatedLine (supporting : List String) : String :=
  if supporting.isEmpty then ""
  else "Related context: " ++ String.intercalate " / " supporting

/-- The successful `baseAnswer`: the three parts, empty ones filtered out
(`.filter(Boolean)`), joined by blank lines (route.ts lines 32-41). -/
def composeBase (a : Answer) : String :=
  String.intercalate "\n\n"
    (([a.answer, sourceLine a, relatedLine a.supporting]).filter (fun s => s != ""))

/-- `baseAnswer` for either outcome of `findAnswer` (route.ts lines 32-42). -/
def baseAnswerOf : Option Answer → String
  | some a => composeBase a
  | none => fallbackAnswer

/-- The JSON payload of the 200 response (route.ts lines 44-62):
`answer` is the localized text, `found = Boolean(answer)`, `source` is the
book/section reference or `null`. -/
def buildResponse (fromEn : String → String → String) (answer : Option Answer)
    (targetLanguage detected : String) : ChatResponse :=
  { answer := fromEn (baseAnswerOf answer) targetLanguage
    baseAnswer := baseAnswerOf answer
    targetLanguage := targetLanguage
    detectedLanguage := detected
    found := answer.isSome
    source := answer.map (fun a => ⟨a.book.id, a.book.title, a.«section»⟩) }

/-- The options object passed to `findAnswer` (route.ts lines 24-27). -/
def routeOpts (b : Body) : QueryOptions :=
  ⟨parseScope b.scope, parseBookId b.bookId⟩

/-- The question string passed to `findAnswer`:
`englishQuestion || message` (route.ts line 24). -/
def routeQuery (deps : Deps) (b : Body) : String :=
  jsOr (deps.toEn (routeMessage b)).text (routeMessage b)

/-- The chat `POST` handler (route.ts lines 7-63): coerce the body fields,
reject an empty message with a 400 error, translate to English, run retrieval,
compose `baseAnswer`, localize it, and answer with the response JSON.  A
failure of the qa engine propagates (the handler has no try/catch).  The
second component records every collaborator call made. -/
def POST (deps : Deps) (b : Body) : RouteResult × CallLog :=
  if routeMessage b = "" then
    (RouteResult.errorResponse 400 "Message must not be empty.", ⟨[], [], []⟩)
  else
    match deps.qa (routeQuery deps b) (routeOpts b) with
    | Except.error e =>
        (RouteResult.failed e,
         ⟨[routeMessage b], [(routeQuery deps b, routeOpts b)], []⟩)
    | Except.ok answer =>
        (RouteResult.ok (buildResponse deps.fromEn answer
            (parseTargetLanguage b.targetLanguage)
            (deps.toEn (routeMessage b)).detected),
         ⟨[routeMessage b], [(routeQuery deps b, routeOpts b)],
          [(baseAnswerOf answer, parseTargetLanguage b.targetLanguage)]⟩)

/-- `s` occurs contiguously inside `t`. -/
def containsSub (s t : String) : Prop := ∃ pre post : String, t = pre ++ s ++ post

/-- A concrete answer used to instantiate the response-consistency theorem. -/
def sampleAnswer : Answer := ⟨"Ans", ⟨"b1", "T"⟩, "S", []⟩

/-- The response the handler produces for `sampleAnswer` with target language
`"en"` and an identity localizer. -/
def sampleResponse : ChatResponse :=
  { answer := "Ans\n\nSource: T — S"
    baseAnswer := "Ans\n\nSource: T — S"
    targetLanguage := "en"
    detectedLanguage := "en"
    found := true
    source := some ⟨"b1", "T", "S"⟩ }

/-!
Spec-modelled retrieval engine.  The module `@/lib/qa` imported by the route is
not part of the visible repository; the definitions below are modelled from the
spec (§3, §4.1-4.4, §7) and are compared against the route through `Deps.qa`.
-/

/-- Modelled from the spec (§3): a `Section` of a book — heading and ordered
paragraphs (a paragraph is raw text, the atomic unit of retrieval). -/
structure Section where
  heading : String
  paragraphs : List String
deriving DecidableEq

/-- Modelled from the spec (§3): a `Book` — stable id, title and ordered
sections.  Only the fields retrieval touches are modelled (author, year, tags
and description play no part in any claim). -/
structure Book where
  id : String
  title : String
  sections : List Section
deriving DecidableEq

/-- One paragraph occurrence, with its position in the corpus
(book insertion order, section order, paragraph order) and the owning book's
id and title and section heading. -/
structure Passage where
  bookIdx : Nat
  sectionIdx : Nat
  paragraphIdx : Nat
  bookId : String
  bookTitle : String
  heading : String
  text : String
deriving DecidableEq

/-- A scored passage (spec §3 `AnswerCandidate`). -/
structure Candidate where
  passage : Passage
  score : ℚ
deriving DecidableEq

/-- The passages of one section's paragraph list, starting at paragraph index
`pIdx`. -/
def passagesOfParas (bIdx sIdx : Nat) (bid btitle heading : String) :
    Nat → List String → List Passage
  | _, [] => []
  | pIdx, t :: rest =>
      ⟨bIdx, sIdx, pIdx, bid, btitle, heading, t⟩ ::
        passagesOfParas bIdx sIdx bid btitle heading (pIdx + 1) rest

/-- The passages of one book's section list, starting at section index `sIdx`. -/
def passagesOfSections (bIdx : Nat) (bid btitle : String) :
    Nat → List Section → List Passage
  | _, [] => []
  | sIdx, s :: rest =>
      passagesOfParas bIdx sIdx bid btitle s.heading 0 s.paragraphs ++
        passagesOfSections bIdx bid btitle (sIdx + 1) rest

/-- The passages of a book list, starting at book index `bIdx`. -/
def passagesOfBooks : Nat → List Book → List Passage
  | _, [] => []
  | bIdx, b :: rest =>
      passagesOfSections bIdx b.id b.title 0 b.sections ++
        passagesOfBooks (bIdx + 1) rest

/-- Modelled from the spec (§3, §4.2): every paragraph of the corpus, in
corpus order, as the index enumerates it. -/
def allParagraphs (corpus : List Book) : List Passage := passagesOfBooks 0 corpus

/-- Modelled from the spec (§4.3): retrieval scope — a single book by id, or
the whole library. -/
inductive Scope where
  | book (bookId : String)
  | library
deriving DecidableEq

/-- Whether a passage is eligible under a scope (spec §4.3: `scope = book`
restricts candidates to the given `bookId`; `library` considers all books). -/
def inScope : Scope → Passage → Bool
  | Scope.book bid, p => p.bookId == bid
  | Scope.library, _ => true

/-- Tie-break order on corpus positions: book insertion order, then section
order, then paragraph order (spec §4.3). -/
def posLe (a b : Passage) : Prop :=
  a.bookIdx < b.bookIdx ∨ (a.bookIdx = b.bookIdx ∧
    (a.sectionIdx < b.sectionIdx ∨ (a.sectionIdx = b.sectionIdx ∧
      a.paragraphIdx ≤ b.paragraphIdx)))

instance (a b : Passage) : Decidable (posLe a b) := by
  unfold posLe
  infer_instance

/-- The ranking order (spec §4.3): higher score first, ties broken by corpus
position (book insertion order, then section order, then paragraph order). -/
def rank (a b : Candidate) : Prop :=
  b.score < a.score ∨ (a.score = b.score ∧ posLe a.passage b.passage)

instance (a b : Candidate) : Decidable (rank a b) := by
  unfold rank
  infer_instance

/-- Modelled from the spec (§4.3): `search(queryTokens, scope)` — with no
query signal return no candidates; otherwise score every in-scope paragraph
and sort best first with the deterministic tie-break.  The spec (§9) marks the
exact scoring formula as not observable from the repository's interface, so
the per-passage score is a parameter; every claim proved about `search` holds
for all scoring functions. -/
def search (scoreFn : List String → Passage → ℚ) (queryTokens : List String)
    (scope : Scope) (corpus : List Book) : List Candidate :=
  if queryTokens.isEmpty then []
  else
    (((allParagraphs corpus).filter (inScope scope)).map
      (fun p => ⟨p, scoreFn queryTokens p⟩)).mergeSort
      (fun a b => decide (rank a b))

/-- Modelled from the spec (§4.1): the fixed stop-word set — articles,
prepositions and common auxiliary verbs. -/
def stopWords : List String :=
  ["a", "an", "the", "of", "in", "on", "at", "to", "for", "from", "by",
   "with", "and", "or", "is", "are", "was", "were", "be", "been", "am",
   "do", "does", "did", "have", "has", "had", "will", "would", "shall",
   "can", "could", "may", "might", "must"]

/-- A character that belongs to a token (split happens at
whitespace/punctuation boundaries, spec §4.1). -/
def isTokenChar (c : Char) : Bool := c.isAlpha || c.isDigit

/-- Modelled from the spec (§4.1): `normalize(text)` — case-fold, split on
whitespace/punctuation boundaries, drop empties and stop-words. -/
def normalize (text : String) : List String :=
  ((text.toLower).split (fun c => !(isTokenChar c))).filter
    (fun t => t != "" && !(stopWords.contains t))

/-- A paragraph shares at least one non-stop token with the query. -/
def sharesToken (queryTokens : List String) (text : String) : Bool :=
  (normalize text).any (fun t => queryTokens.contains t)

/-- Modelled from the spec (§4.3): supporting excerpts for the top candidate —
sibling paragraphs of the same section with at least one shared non-stop
token, up to a small fixed count. -/
def supportingFor (queryTokens : List String) (corpus : List Book)
    (top : Passage) : List String :=
  (((allParagraphs corpus).filter (fun p =>
      p.bookIdx == top.bookIdx && p.sectionIdx == top.sectionIdx &&
      p.paragraphIdx != top.paragraphIdx &&
      sharesToken queryTokens p.text)).map Passage.text).take 2

/-- Modelled from the spec (§4.3, §4.4, §7): `findAnswer` — fail with
`InvalidScope` when `scope = book` has no `bookId` (before any retrieval);
otherwise tokenize, search under the scope, and compose the top candidate into
an answer when it clears the minimum score threshold, else report no answer. -/
def findAnswer (scoreFn : List String → Passage → ℚ) (threshold : ℚ)
    (corpus : List Book) (query : String) (opts : QueryOptions) :
    Except QaError (Option Answer) :=
  match opts.scope, opts.bookId with
  | ScopeTag.book, none => Except.error QaError.invalidScope
  | _, _ =>
    let scope := match opts.scope, opts.bookId with
      | ScopeTag.book, some bid => Scope.book bid
      | _, _ => Scope.library
    let tokens := normalize query
    match search scoreFn tokens scope corpus with
    | [] => Except.ok none
    | top :: _ =>
        if threshold ≤ top.score then
          Except.ok (some
            ⟨top.passage.text, ⟨top.passage.bookId, top.passage.bookTitle⟩,
             top.passage.heading, supportingFor tokens corpus top.passage⟩)
        else Except.ok none

/-- Modelled from the spec (§4.6, §7): `fromEnglish(text, targetLanguage)` —
a no-op for `"en"`; otherwise ask the translation backend, and on any failure
(unsupported language, backend unavailable, timeout — `backend` returns
`none`) fall back to the untranslated text.  Never fatal. -/
def translateFromEnglish (backend : String → String → Option String)
    (text targetLanguage : String) : String :=
  if targetLanguage = "en" then text
  else
    match backend text targetLanguage with
    | some t => t
    | none => text

/-! Helper lemmas. -/

theorem mem_passagesOfParas_bookId {bIdx sIdx : Nat} {bid btitle heading : String}
    {pIdx : Nat} {ts : List String} {p : Passage}
    (h : p ∈ passagesOfParas bIdx sIdx bid btitle heading pIdx ts) :
    p.bookId = bid := by
  induction ts generalizing pIdx with
  | nil => simp [passagesOfParas] at h
  | cons t rest ih =>
    simp only [passagesOfParas, List.mem_cons] at h
    rcases h with h | h
    · subst h; rfl
    · exact ih h

theorem mem_passagesOfSections_bookId {bIdx : Nat} {bid btitle : String}
    {sIdx : Nat} {ss : List Section} {p : Passage}
    (h : p ∈ passagesOfSections bIdx bid btitle sIdx ss) :
    p.bookId = bid := by
  induction ss generalizing sIdx with
  | nil => simp [passagesOfSections] at h
  | cons s rest ih =>
    simp only [passagesOfSections, List.mem_append] at h
    rcases h with h | h
    · exact mem_passagesOfParas_bookId h
    · exact ih h

theorem mem_passagesOfBooks_bookId {i : Nat} {bs : List Book} {p : Passage}
    (h : p ∈ passagesOfBooks i bs) : p.bookId ∈ bs.map Book.id := by
  induction bs generalizing i with
  | nil => simp [passagesOfBooks] at h
  | cons bb rest ih =>
    simp only [passagesOfBooks, List.mem_append] at h
    rcases h with h | h
    · simp [mem_passagesOfSections_bookId h]
    · exact List.mem_cons_of_mem _ (ih h)

theorem mem_allParagraphs_bookId {corpus : List Book} {p : Passage}
    (h : p ∈ allParagraphs corpus) : p.bookId ∈ corpus.map Book.id :=
  mem_passagesOfBooks_bookId h

theorem posLe_trans {a b c : Passage} (h1 : posLe a b) (h2 : posLe b c) :
    posLe a c := by
  unfold posLe at h1 h2 ⊢
  omega

theorem posLe_total (a b : Passage) : posLe a b ∨ posLe b a := by
  unfold posLe
  omega

theorem rank_trans (a b c : Candidate) (h1 : rank a b) (h2 : rank b c) :
    rank a c := by
  rcases h1 with h1 | ⟨e1, p1⟩ <;> rcases h2 with h2 | ⟨e2, p2⟩
  · exact Or.inl (lt_trans h2 h1)
  · exact Or.inl (by rw [← e2]; exact h1)
  · exact Or.inl (by rw [e1]; exact h2)
  · exact Or.inr ⟨e1.trans e2, posLe_trans p1 p2⟩

theorem rank_total (a b : Candidate) : rank a b ∨ rank b a := by
  rcases lt_trichotomy a.score b.score with h | h | h
  · exact Or.inr (Or.inl h)
  · rcases posLe_total a.passage b.passage with p | p
    · exact Or.inl (Or.inr ⟨h, p⟩)
    · exact Or.inr (Or.inr ⟨h.symm, p⟩)
  · exact Or.inl (Or.inl h)

theorem POST_ok_of_qa (deps : Deps) (b : Body) (oa : Option Answer)
    (hmsg : routeMessage b ≠ "")
    (hqa : deps.qa (routeQuery deps b) (routeOpts b) = Except.ok oa) :
    POST deps b =
      (RouteResult.ok (buildResponse deps.fromEn oa
          (parseTargetLanguage b.targetLanguage)
          (deps.toEn (routeMessage b)).detected),
       ⟨[routeMessage b], [(routeQuery deps b, routeOpts b)],
        [(baseAnswerOf oa, parseTargetLanguage b.targetLanguage)]⟩) := by
  unfold POST
  rw [if_neg hmsg, hqa]

theorem POST_failed_of_qa (deps : Deps) (b : Body) (e : QaError)
    (hmsg : routeMessage b ≠ "")
    (hqa : deps.qa (routeQuery deps b) (routeOpts b) = Except.error e) :
    POST deps b =
      (RouteResult.failed e,
       ⟨[routeMessage b], [(routeQuery deps b, routeOpts b)], []⟩) := by
  unfold POST
  rw [if_neg hmsg, hqa]

/-! Claim theorems. -/

/-- Claim C7: translating to English from English is the identity:
`fromEnglish(x, "en") = x` for every string `x`, whatever the backend does. -/
theorem c7_fromEnglish_en_identity (backend : String → String → Option String)
    (x : String) : translateFromEnglish backend x "en" = x := by
  simp [translateFromEnglish]

/-- Claim C8: the handler applies the documented defaults at its boundary:
a `scope` field that is absent or not the string `"book"` parses to `library`,
and a `targetLanguage` field that is absent or not a string parses to `"en"`;
the parsed values are exactly what `POST` hands to retrieval and reports in
its response. -/
theorem c8_boundary_defaults (deps : Deps) (b : Body) :
    (b.scope ≠ some (JValue.str "book") → parseScope b.scope = ScopeTag.library) ∧
    ((∀ s, b.targetLanguage ≠ some (JValue.str s)) →
      parseTargetLanguage b.targetLanguage = "en") ∧
    (∀ r, (POST deps b).1 = RouteResult.ok r →
      r.targetLanguage = parseTargetLanguage b.targetLanguage) ∧
    (∀ q opts, (q, opts) ∈ (POST deps b).2.findAnswerCalls →
      opts = routeOpts b) := by
  refine ⟨fun h => ?_, fun h => ?_, fun r hr => ?_, fun q opts hmem => ?_⟩
  · simp [parseScope, h]
  · cases hb : b.targetLanguage with
    | none => rfl
    | some v =>
      cases v with
      | str s => exact absurd hb (h s)
      | null => rfl
      | other c => rfl
  · unfold POST at hr
    by_cases hm : routeMessage b = ""
    · rw [if_pos hm] at hr
      exact absurd hr (by simp)
    · rw [if_neg hm] at hr
      rcases hq : deps.qa (routeQuery deps b) (routeOpts b) with e | oa <;>
        rw [hq] at hr <;> simp at hr
      rw [← hr]
      rfl
  · unfold POST at hmem
    by_cases hm : routeMessage b = ""
    · rw [if_pos hm] at hmem
      simp at hmem
    · rw [if_neg hm] at hmem
      rcases hq : deps.qa (routeQuery deps b) (routeOpts b) with e | oa <;>
        rw [hq] at hmem <;> simp at hmem <;> exact hmem.2

/-- Witness for C8 at a concrete request body. -/
theorem c8_boundary_defaults_witness :
    parseScope (some (JValue.str "library")) = ScopeTag.library ∧
    parseTargetLanguage (none : Option JValue) = "en" :=
  ⟨(c8_boundary_defaults
      ⟨fun s => ⟨s, "en"⟩, fun _ _ => Except.ok none, fun t _ => t⟩
      ⟨some (JValue.str "hi"), some (JValue.str "library"), none, none⟩).1
      (by decide),
   (c8_boundary_defaults
      ⟨fun s => ⟨s, "en"⟩, fun _ _ => Except.ok none, fun t _ => t⟩
      ⟨some (JValue.str "hi"), some (JValue.str "library"), none, none⟩).2.1
      (fun s => by simp)⟩

/-- Claim C2: a request whose message trims to the empty string is answered
with a 400 error body and no collaborator is invoked at all; whenever
retrieval is invoked its query is non-empty, and is the trimmed message
itself (or the translation step's output for it). -/
theorem c2_empty_message_rejected (deps : Deps) (b : Body) :
    (routeMessage b = "" →
      POST deps b =
        (RouteResult.errorResponse 400 "Message must not be empty.",
         ⟨[], [], []⟩)) ∧
    (∀ q opts, (q, opts) ∈ (POST deps b).2.findAnswerCalls →
      q ≠ "" ∧ (q = routeMessage b ∨ q = (deps.toEn (routeMessage b)).text)) := by
  constructor
  · intro h
    unfold POST
    rw [if_pos h]
  · intro q opts hmem
    unfold POST at hmem
    by_cases hm : routeMessage b = ""
    · rw [if_pos hm] at hmem
      simp at hmem
    · rw [if_neg hm] at hmem
      rcases hq : deps.qa (routeQuery deps b) (routeOpts b) with e | oa <;>
        rw [hq] at hmem <;> simp at hmem <;>
      · have hq' : q = routeQuery deps b := hmem.1
        unfold routeQuery jsOr at hq'
        by_cases ht : (deps.toEn (routeMessage b)).text = ""
        · rw [if_pos ht] at hq'
          exact ⟨fun hqe => hm (hq'.symm.trans hqe), Or.inl hq'⟩
        · rw [if_neg ht] at hq'
          exact ⟨fun hqe => ht (hq'.symm.trans hqe), Or.inr hq'⟩

/-- Witness for C2: a whitespace-only message is rejected with the 400 body
and an empty call log. -/
theorem c2_empty_message_rejected_witness :
    POST ⟨fun s => ⟨s, "en"⟩, fun _ _ => Except.ok none, fun t _ => t⟩
        ⟨some (JValue.str "   "), none, none, none⟩ =
      (RouteResult.errorResponse 400 "Message must not be empty.",
       ⟨[], [], []⟩) :=
  (c2_empty_message_rejected _ _).1 (by decide)

/-- Claim C9: when translation returns an empty text for a non-empty message,
retrieval is queried with the original (trimmed) message, not with the empty
string. -/
theorem c9_empty_translation_falls_back (deps : Deps) (b : Body)
    (hmsg : routeMessage b ≠ "")
    (hempty : (deps.toEn (routeMessage b)).text = "") :
    (POST deps b).2.findAnswerCalls = [(routeMessage b, routeOpts b)] := by
  unfold POST
  rw [if_neg hmsg]
  have hq : routeQuery deps b = routeMessage b := by
    unfold routeQuery jsOr
    rw [hempty]
    simp
  rcases hqa : deps.qa (routeQuery deps b) (routeOpts b) with e | oa <;>
    simp [hqa, hq]

/-- Witness for C9: a translator that returns the empty string still leads to
a retrieval call with the original message. -/
theorem c9_empty_translation_falls_back_witness :
    (POST ⟨fun _ => ⟨"", "unknown"⟩, fun _ _ => Except.ok none, fun t _ => t⟩
        ⟨some (JValue.str "hola"), none, none, none⟩).2.findAnswerCalls =
      [("hola", ⟨ScopeTag.library, none⟩)] :=
  c9_empty_translation_falls_back
    ⟨fun _ => ⟨"", "unknown"⟩, fun _ _ => Except.ok none, fun t _ => t⟩
    ⟨some (JValue.str "hola"), none, none, none⟩ (by decide) (by decide)

/-- Claim C3: when retrieval reports no answer, the handler returns a normal
(non-error) response with `found = false`, `baseAnswer` equal to the fixed
fallback message, and `source = null`. -/
theorem c3_no_match_normal_fallback (deps : Deps) (b : Body)
    (hmsg : routeMessage b ≠ "")
    (hqa : deps.qa (routeQuery deps b) (routeOpts b) = Except.ok none) :
    (POST deps b).1 = RouteResult.ok
      { answer := deps.fromEn fallbackAnswer (parseTargetLanguage b.targetLanguage)
        baseAnswer := fallbackAnswer
        targetLanguage := parseTargetLanguage b.targetLanguage
        detectedLanguage := (deps.toEn (routeMessage b)).detected
        found := false
        source := none } := by
  rw [POST_ok_of_qa deps b none hmsg hqa]
  rfl

/-- Witness for C3 on a concrete query with no match. -/
theorem c3_no_match_normal_fallback_witness :
    (POST ⟨fun s => ⟨s, "en"⟩, fun _ _ => Except.ok none, fun t _ => t⟩
        ⟨some (JValue.str "opera singing techniques"), none, none, none⟩).1 =
      RouteResult.ok
        { answer := fallbackAnswer
          baseAnswer := fallbackAnswer
          targetLanguage := "en"
          detectedLanguage := "en"
          found := false
          source := none } :=
  c3_no_match_normal_fallback _ _ (by decide) rfl

/-- Claim C6: a failing (or timed-out) translation backend is never fatal:
the query still returns a normal response, the response reports the requested
`targetLanguage`, and `answer` coincides with the untranslated `baseAnswer`. -/
theorem c6_translation_failure_not_fatal (toEn : String → TranslationResult)
    (qa : String → QueryOptions → Except QaError (Option Answer))
    (backend : String → String → Option String) (b : Body) (oa : Option Answer)
    (hmsg : routeMessage b ≠ "")
    (hqa : qa (routeQuery ⟨toEn, qa, translateFromEnglish backend⟩ b)
        (routeOpts b) = Except.ok oa)
    (hfail : ∀ text lang, backend text lang = none) :
    ∃ r, (POST ⟨toEn, qa, translateFromEnglish backend⟩ b).1 =
        RouteResult.ok r ∧
      r.answer = r.baseAnswer ∧
      r.targetLanguage = parseTargetLanguage b.targetLanguage := by
  refine ⟨buildResponse (translateFromEnglish backend) oa
      (parseTargetLanguage b.targetLanguage)
      ((toEn (routeMessage b)).detected), ?_, ?_, rfl⟩
  · rw [POST_ok_of_qa ⟨toEn, qa, translateFromEnglish backend⟩ b oa hmsg hqa]
  · show translateFromEnglish backend (baseAnswerOf oa)
        (parseTargetLanguage b.targetLanguage) = baseAnswerOf oa
    unfold translateFromEnglish
    by_cases ht : parseTargetLanguage b.targetLanguage = "en"
    · rw [if_pos ht]
    · rw [if_neg ht, hfail]

/-- Witness for C6: with a backend that always fails and a French target, the
response still succeeds and `answer = baseAnswer`. -/
theorem c6_translation_failure_not_fatal_witness :
    ∃ r, (POST ⟨fun s => ⟨s, "en"⟩, fun _ _ => Except.ok none,
        translateFromEnglish (fun _ _ => none)⟩
        ⟨some (JValue.str "hello"), none, none, some (JValue.str "fr")⟩).1 =
        RouteResult.ok r ∧
      r.answer = r.baseAnswer ∧
      r.targetLanguage = parseTargetLanguage (some (JValue.str "fr")) :=
  c6_translation_failure_not_fatal (fun s => ⟨s, "en"⟩)
    (fun _ _ => Except.ok none) (fun _ _ => none)
    ⟨some (JValue.str "hello"), none, none, some (JValue.str "fr")⟩ none
    (by decide) rfl (fun _ _ => rfl)

/-- Claim C1: a request with `scope = "book"` and no (string) `bookId` makes
the engine fail the call with `InvalidScope` — the handler propagates the
failure instead of answering, so retrieval never runs and there is no silent
fall back to library scope. -/
theorem c1_book_scope_requires_bookId (toEn : String → TranslationResult)
    (fromEn : String → String → String) (scoreFn : List String → Passage → ℚ)
    (threshold : ℚ) (corpus : List Book) (b : Body)
    (hscope : b.scope = some (JValue.str "book"))
    (hbid : parseBookId b.bookId = none)
    (hmsg : routeMessage b ≠ "") :
    findAnswer scoreFn threshold corpus
        (routeQuery ⟨toEn, findAnswer scoreFn threshold corpus, fromEn⟩ b)
        (routeOpts b) = Except.error QaError.invalidScope ∧
    (POST ⟨toEn, findAnswer scoreFn threshold corpus, fromEn⟩ b).1 =
      RouteResult.failed QaError.invalidScope := by
  have hopts : routeOpts b = ⟨ScopeTag.book, none⟩ := by
    unfold routeOpts parseScope
    rw [hscope, hbid]
    simp
  have hfa : findAnswer scoreFn threshold corpus
      (routeQuery ⟨toEn, findAnswer scoreFn threshold corpus, fromEn⟩ b)
      (routeOpts b) = Except.error QaError.invalidScope := by
    rw [hopts]
    rfl
  refine ⟨hfa, ?_⟩
  rw [POST_failed_of_qa ⟨toEn, findAnswer scoreFn threshold corpus, fromEn⟩ b
    QaError.invalidScope hmsg hfa]

/-- Witness for C1 at a concrete request with `scope = "book"` and no
`bookId`. -/
theorem c1_book_scope_requires_bookId_witness :
    findAnswer (fun _ _ => (0 : ℚ)) 0 []
        (routeQuery ⟨fun s => ⟨s, "en"⟩, findAnswer (fun _ _ => (0 : ℚ)) 0 [],
          fun t _ => t⟩ ⟨some (JValue.str "q"), some (JValue.str "book"),
          none, none⟩)
        (routeOpts ⟨some (JValue.str "q"), some (JValue.str "book"),
          none, none⟩) = Except.error QaError.invalidScope ∧
    (POST ⟨fun s => ⟨s, "en"⟩, findAnswer (fun _ _ => (0 : ℚ)) 0 [],
        fun t _ => t⟩ ⟨some (JValue.str "q"), some (JValue.str "book"),
        none, none⟩).1 = RouteResult.failed QaError.invalidScope :=
  c1_book_scope_requires_bookId (fun s => ⟨s, "en"⟩) (fun t _ => t)
    (fun _ _ => (0 : ℚ)) 0 []
    ⟨some (JValue.str "q"), some (JValue.str "book"), none, none⟩
    rfl rfl (by decide)

/-- Claim C4: with `scope = "book"` every candidate returned by `search`
carries the requested book id (no other book's paragraph ever appears), and a
`bookId` absent from the corpus yields zero candidates and no answer,
whatever the query and scoring function. -/
theorem c4_scope_correctness (scoreFn : List String → Passage → ℚ)
    (corpus : List Book) (bid : String) :
    (∀ queryTokens c,
      c ∈ search scoreFn queryTokens (Scope.book bid) corpus →
        c.passage.bookId = bid) ∧
    (bid ∉ corpus.map Book.id →
      (∀ queryTokens, search scoreFn queryTokens (Scope.book bid) corpus = []) ∧
      (∀ threshold query,
        findAnswer scoreFn threshold corpus query
          ⟨ScopeTag.book, some bid⟩ = Except.ok none)) := by
  have hmem : ∀ queryTokens c,
      c ∈ search scoreFn queryTokens (Scope.book bid) corpus →
        c.passage.bookId = bid := by
    intro qt c hc
    unfold search at hc
    split at hc
    · simp at hc
    · rw [List.mem_mergeSort] at hc
      rcases List.mem_map.mp hc with ⟨p, hp, rfl⟩
      have h2 := (List.mem_filter.mp hp).2
      simpa [inScope] using h2
  refine ⟨hmem, fun hnot => ?_⟩
  have hnil : ∀ qt, search scoreFn qt (Scope.book bid) corpus = [] := by
    intro qt
    unfold search
    split
    · rfl
    · have hfil : (allParagraphs corpus).filter (inScope (Scope.book bid)) = [] := by
        rw [List.filter_eq_nil_iff]
        intro p hp hin
        have hbid : p.bookId = bid := by simpa [inScope] using hin
        have hin2 : p.bookId ∈ corpus.map Book.id := mem_allParagraphs_bookId hp
        rw [hbid] at hin2
        exact hnot hin2
      rw [hfil]
      simp
  refine ⟨hnil, fun threshold query => ?_⟩
  show (match search scoreFn (normalize query) (Scope.book bid) corpus with
    | [] => Except.ok (none : Option Answer)
    | top :: _ =>
        if threshold ≤ top.score then
          Except.ok (some
            ⟨top.passage.text, ⟨top.passage.bookId, top.passage.bookTitle⟩,
             top.passage.heading,
             supportingFor (normalize query) corpus top.passage⟩)
        else Except.ok none) = Except.ok none
  rw [hnil (normalize query)]

/-- Witness for C4: a one-book corpus and a `bookId` that does not exist give
zero candidates and no answer. -/
theorem c4_scope_correctness_witness :
    search (fun _ _ => (0 : ℚ)) ["carbon"] (Scope.book "ghost")
        [⟨"climate-atlas", "Climate Atlas",
          [⟨"Carbon Markets",
            ["Carbon markets price emissions through tradable permits."]⟩]⟩] =
      [] ∧
    findAnswer (fun _ _ => (0 : ℚ)) 0
        [⟨"climate-atlas", "Climate Atlas",
          [⟨"Carbon Markets",
            ["Carbon markets price emissions through tradable permits."]⟩]⟩]
        "How do carbon markets work?" ⟨ScopeTag.book, some "ghost"⟩ =
      Except.ok none := by
  have h := (c4_scope_correctness (fun _ _ => (0 : ℚ))
    [⟨"climate-atlas", "Climate Atlas",
      [⟨"Carbon Markets",
        ["Carbon markets price emissions through tradable permits."]⟩]⟩]
    "ghost").2 (by decide)
  exact ⟨h.1 ["carbon"], h.2 0 "How do carbon markets work?"⟩

/-- Claim C5: `search` is a deterministic function of its inputs, and its
output is ordered by descending score with ties broken by book insertion
order, then section order, then paragraph order. -/
theorem c5_search_deterministic_tiebreak (scoreFn : List String → Passage → ℚ)
    (queryTokens : List String) (scope : Scope) (corpus : List Book) :
    search scoreFn queryTokens scope corpus =
      search scoreFn queryTokens scope corpus ∧
    (search scoreFn queryTokens scope corpus).Pairwise rank := by
  refine ⟨rfl, ?_⟩
  unfold search
  split
  · exact List.Pairwise.nil
  · refine List.Pairwise.imp (fun h => of_decide_eq_true h) ?_
    exact List.sorted_mergeSort
      (fun a b c h1 h2 => decide_eq_true
        (rank_trans a b c (of_decide_eq_true h1) (of_decide_eq_true h2)))
      (fun a b => by
        simp only [Bool.or_eq_true, decide_eq_true_eq]
        exact rank_total a b)
      _

theorem sourceLine_ne_empty (a : Answer) : sourceLine a ≠ "" := by
  intro h
  have h1 := congrArg String.length h
  simp only [sourceLine, String.length_append] at h1
  have h2 : ("Source: ").length = 8 := rfl
  have h3 : ("" : String).length = 0 := rfl
  omega

theorem composeBase_contains (a : Answer) :
    containsSub a.answer (composeBase a) ∧
    containsSub (sourceLine a) (composeBase a) := by
  have hbs : (sourceLine a != "") = true := by
    simpa using sourceLine_ne_empty a
  by_cases ha : a.answer = ""
  · have hba : (a.answer != "") = false := by rw [ha]; rfl
    by_cases hr : relatedLine a.supporting = ""
    · have hbr : (relatedLine a.supporting != "") = false := by rw [hr]; rfl
      have hc : composeBase a = sourceLine a := by
        simp [composeBase, List.filter_cons, hba, hbr, hbs,
          String.intercalate, String.intercalate.go]
      constructor
      · rw [ha, hc]
        exact ⟨"", sourceLine a, by simp⟩
      · rw [hc]
        exact ⟨"", "", by simp⟩
    · have hbr : (relatedLine a.supporting != "") = true := by simpa using hr
      have hc : composeBase a =
          sourceLine a ++ "\n\n" ++ relatedLine a.supporting := by
        simp [composeBase, List.filter_cons, hba, hbr, hbs,
          String.intercalate, String.intercalate.go]
      constructor
      · rw [ha]
        exact ⟨"", composeBase a, by simp⟩
      · rw [hc]
        exact ⟨"", "\n\n" ++ relatedLine a.supporting,
          by simp [String.append_assoc]⟩
  · have hba : (a.answer != "") = true := by simpa using ha
    by_cases hr : relatedLine a.supporting = ""
    · have hbr : (relatedLine a.supporting != "") = false := by rw [hr]; rfl
      have hc : composeBase a = a.answer ++ "\n\n" ++ sourceLine a := by
        simp [composeBase, List.filter_cons, hba, hbr, hbs,
          String.intercalate, String.intercalate.go]
      constructor
      · rw [hc]
        exact ⟨"", "\n\n" ++ sourceLine a, by simp [String.append_assoc]⟩
      · rw [hc]
        exact ⟨a.answer ++ "\n\n", "", by simp [String.append_assoc]⟩
    · have hbr : (relatedLine a.supporting != "") = true := by simpa using hr
      have hc : composeBase a =
          a.answer ++ "\n\n" ++ sourceLine a ++ "\n\n" ++
            relatedLine a.supporting := by
        simp [composeBase, List.filter_cons, hba, hbr, hbs,
          String.intercalate, String.intercalate.go]
      constructor
      · rw [hc]
        exact ⟨"", "\n\n" ++ sourceLine a ++ "\n\n" ++ relatedLine a.supporting,
          by simp [String.append_assoc]⟩
      · rw [hc]
        exact ⟨a.answer ++ "\n\n", "\n\n" ++ relatedLine a.supporting,
          by simp [String.append_assoc]⟩

/-- Claim C10: every normal response of the handler is internally consistent:
`found` is true exactly when `source` is non-null, and a found response's
`baseAnswer` is the composed text, containing the answer body and the
`Source:` line naming the answering book's title and section heading. -/
theorem c10_response_consistency (deps : Deps) (b : Body) (r : ChatResponse)
    (h : (POST deps b).1 = RouteResult.ok r) :
    (r.found = true ↔ r.source ≠ none) ∧
    (r.found = true → ∃ a : Answer,
      r.source = some ⟨a.book.id, a.book.title, a.«section»⟩ ∧
      r.baseAnswer = composeBase a ∧
      containsSub a.answer r.baseAnswer ∧
      containsSub ("Source: " ++ a.book.title ++ " — " ++ a.«section»)
        r.baseAnswer) := by
  unfold POST at h
  by_cases hm : routeMessage b = ""
  · rw [if_pos hm] at h
    exact absurd h (by simp)
  · rw [if_neg hm] at h
    rcases hq : deps.qa (routeQuery deps b) (routeOpts b) with e | oa <;>
      rw [hq] at h
    · exact absurd h (by simp)
    · simp only [RouteResult.ok.injEq] at h
      subst h
      cases oa with
      | none =>
        constructor
        · simp [buildResponse]
        · intro hf
          simp [buildResponse] at hf
      | some a =>
        constructor
        · simp [buildResponse]
        · intro _
          exact ⟨a, by simp [buildResponse], rfl,
            (composeBase_contains a).1, (composeBase_contains a).2⟩

/-- Witness for C10 at a concrete found response. -/
theorem c10_response_consistency_witness :
    (sampleResponse.found = true ↔ sampleResponse.source ≠ none) ∧
    (sampleResponse.found = true → ∃ a : Answer,
      sampleResponse.source = some ⟨a.book.id, a.book.title, a.«section»⟩ ∧
      sampleResponse.baseAnswer = composeBase a ∧
      containsSub a.answer sampleResponse.baseAnswer ∧
      containsSub ("Source: " ++ a.book.title ++ " — " ++ a.«section»)
        sampleResponse.baseAnswer) :=
  c10_response_consistency
    ⟨fun s => ⟨s, "en"⟩, fun _ _ => Except.ok (some sampleAnswer), fun t _ => t⟩
    ⟨some (JValue.str "hi"), none, none, none⟩ sampleResponse (by decide)

end Spec2Proof
